import Mathlib

/-!
Verification of the StitchDB transaction engine (`tx.go`) against its
natural-language specification.

The transaction code (`NewTx`, `RollbackTx`, `CommitTx`, `lock`, `unlock`,
`Get`, `Set`, `Delete`, `CreateIndex`, `DropIndex`) is embedded shallowly
from the source.  The `Bucket`, `Entry` and `Index` collaborators are not
part of the source under analysis; they are modelled from the spec's
boundary description (§3, §6): the primary index is a finite map from keys
to entries, secondary index trees are finite maps as well, and the
durability log is an append-only list of records.

Finite maps are represented as association lists with unique keys
(`minsert` replaces any previous binding).
-/

set_option autoImplicit false

namespace StitchSpec

/-! ### Association-list maps -/

/-- Look a key up in an association list, first binding wins. -/
def mlookup {α : Type} : List (String × α) → String → Option α
  | [], _ => none
  | (k, v) :: m, a => if k = a then some v else mlookup m a

/-- Remove every binding of a key from an association list. -/
def merase {α : Type} : List (String × α) → String → List (String × α)
  | [], _ => []
  | (k, v) :: m, a => if k = a then merase m a else (k, v) :: merase m a

/-- Bind a key, replacing any previous binding. -/
def minsert {α : Type} (m : List (String × α)) (k : String) (v : α) :
    List (String × α) :=
  (k, v) :: merase m k

theorem mlookup_merase {α : Type} (m : List (String × α)) (k a : String) :
    mlookup (merase m k) a = if k = a then none else mlookup m a := by
  induction m with
  | nil => simp [merase, mlookup]
  | cons p m ih =>
    obtain ⟨k', v⟩ := p
    by_cases h1 : k' = k
    · subst h1
      by_cases h2 : k' = a
      · subst h2; simp [merase, mlookup, ih]
      · simp [merase, mlookup, ih, h2]
    · by_cases h2 : k' = a
      · subst h2
        simp [merase, mlookup, h1, ih]
        intro h; exact absurd h.symm h1
      · simp [merase, mlookup, h1, h2, ih]

theorem mlookup_minsert {α : Type} (m : List (String × α)) (k : String)
    (v : α) (a : String) :
    mlookup (minsert m k v) a = if k = a then some v else mlookup m a := by
  by_cases h : k = a
  · subst h; simp [minsert, mlookup]
  · simp [minsert, mlookup, h, mlookup_merase]

/-! ### Data model (modelled from the spec) -/

/-- Modelled from the spec: an `Entry` (§3) is a key, an opaque value, an
optional expiration timestamp and a validity flag.  The source's `Entry`
type lives outside the analysed file; only its `k` field is accessed by
the transaction code. -/
structure Entry where
  k : String
  v : String
  expiresAt : Option Nat
  valid : Bool
deriving DecidableEq

/-- Modelled from the spec: `IsExpired` holds when the entry carries an
expiration timestamp that is in the past relative to `now`. -/
def Entry.IsExpired (e : Entry) (now : Nat) : Bool :=
  match e.expiresAt with
  | none => false
  | some t => t < now

/-- Modelled from the spec: `IsInvalid` holds when the validity flag is
cleared. -/
def Entry.IsInvalid (e : Entry) : Bool :=
  !e.valid

/-- Modelled from the spec: a secondary `Index` (§3) is a named ordered
structure of entries.  The extraction rule is opaque to the transaction
code, so the tree is modelled as a finite map keyed by entry key; the
rollback path deletes and reinserts through the entry key. -/
structure Index where
  pattern : String
  t : List (String × Entry)
deriving DecidableEq

/-- Modelled from the spec: a durability-log record is either an
insert/replace record carrying the entry or a delete record carrying the
key (§4.5). -/
inductive LogRecord where
  | insertRec (e : Entry)
  | deleteRec (k : String)
deriving DecidableEq

/-- Modelled from the spec: a `Bucket` (§3, §6) owns the primary index,
the index registry, an open flag, the durability-log append buffer and a
reader/writer lock (modelled by counters of current holders). -/
structure Bucket where
  data : List (String × Entry)
  indexes : List (String × Index)
  bopen : Bool
  aof : List LogRecord
  writers : Nat
  readers : Nat
deriving DecidableEq

/-- Modelled from the spec: `bkt.get` looks the key up in the primary
index. -/
def Bucket.get (b : Bucket) (k : String) : Option Entry :=
  mlookup b.data k

/-- Modelled from the spec: `bkt.insert` replaces-or-inserts the entry
under its key in the primary index and returns the previous occupant. -/
def Bucket.insert (b : Bucket) (e : Entry) : Option Entry × Bucket :=
  (mlookup b.data e.k, { b with data := minsert b.data e.k e })

/-- Modelled from the spec: `bkt.delete` removes the key from the primary
index and returns the removed entry, or none. -/
def Bucket.delete (b : Bucket) (k : String) : Option Entry × Bucket :=
  (mlookup b.data k, { b with data := merase b.data k })

/-- Modelled from the spec: `WriteInsertEntry` emits an insert/replace
record to the durability-log buffer. -/
def Bucket.WriteInsertEntry (b : Bucket) (e : Entry) : Bucket :=
  { b with aof := b.aof ++ [LogRecord.insertRec e] }

/-- Modelled from the spec: `WriteDeleteEntry` emits a delete record to
the durability-log buffer. -/
def Bucket.WriteDeleteEntry (b : Bucket) (k : String) : Bucket :=
  { b with aof := b.aof ++ [LogRecord.deleteRec k] }

/-- Modelled from the spec: `WriteAOFBuf` hands the buffered records to
the persistence collaborator; the flush policy is external configuration,
so the buffer content is left observable. -/
def Bucket.WriteAOFBuf (b : Bucket) : Bucket :=
  b

/-- Modelled from the spec: `NewIndex` creates an empty index for the
pattern. -/
def NewIndex (pattern : String) : Index :=
  { pattern := pattern, t := [] }

/-- Modelled from the spec: `build` performs a full build pass over the
bucket's current primary entries (§4.4). -/
def Index.build (i : Index) (data : List (String × Entry)) : Index :=
  { i with t := data.foldl (fun acc p => minsert acc p.1 p.2) i.t }

/-- Modelled from the spec: the engine's only state consulted by the
transaction code is the global open flag. -/
structure StitchDB where
  dopen : Bool
deriving DecidableEq

/-- Transaction mode, from the source (`RWMode`). -/
inductive RWMode where
  | MODE_READ
  | MODE_READ_WRITE
deriving DecidableEq

/-- The rollback context, from the source: `backward` and `forward` map
keys to an entry pointer that may be nil (`Option Entry`), `backwardIndex`
maps index names to an index pointer that may be nil (`Option Index`). -/
structure RbCtx where
  backward : List (String × Option Entry)
  forward : List (String × Option Entry)
  backwardIndex : List (String × Option Index)
deriving DecidableEq

/-- A transaction, from the source. -/
structure Tx where
  db : StitchDB
  bkt : Bucket
  mode : RWMode
  rbctx : RbCtx
deriving DecidableEq

/-- `NewTx`, from the source: constructs a transaction with empty
backward, forward and backwardIndex maps. -/
def NewTx (db : StitchDB) (bkt : Bucket) (mode : RWMode) : Tx :=
  { db := db, bkt := bkt, mode := mode,
    rbctx := { backward := [], forward := [], backwardIndex := [] } }

/-- `lock`, from the source: shared acquisition for `MODE_READ`,
exclusive acquisition for `MODE_READ_WRITE`. -/
def Tx.lock (t : Tx) : Tx :=
  match t.mode with
  | RWMode.MODE_READ =>
      { t with bkt := { t.bkt with readers := t.bkt.readers + 1 } }
  | RWMode.MODE_READ_WRITE =>
      { t with bkt := { t.bkt with writers := t.bkt.writers + 1 } }

/-- `unlock`, from the source. -/
def Tx.unlock (t : Tx) : Tx :=
  match t.mode with
  | RWMode.MODE_READ =>
      { t with bkt := { t.bkt with readers := t.bkt.readers - 1 } }
  | RWMode.MODE_READ_WRITE =>
      { t with bkt := { t.bkt with writers := t.bkt.writers - 1 } }

/-- One backward-map entry replayed by `RollbackTx`, from the source: a
nil value means the key was inserted during the transaction and is
deleted from the primary index and from every registered index tree; a
non-nil value is reinserted into the primary index and into every
registered index tree. -/
def rollbackStep (b : Bucket) (p : String × Option Entry) : Bucket :=
  match p.2 with
  | none =>
      { b with
        data := merase b.data p.1,
        indexes := b.indexes.map
          (fun q => (q.1, { q.2 with t := merase q.2.t p.1 })) }
  | some entry =>
      { b with
        data := minsert b.data p.1 entry,
        indexes := b.indexes.map
          (fun q => (q.1, { q.2 with t := minsert q.2.t p.1 entry })) }

/-- `RollbackTx`, from the source: replays the backward map (and only the
backward map — `backwardIndex` is never consulted), then unlocks. -/
def Tx.RollbackTx (t : Tx) : Option String × Tx :=
  let bkt := t.rbctx.backward.foldl rollbackStep t.bkt
  (none, Tx.unlock { t with bkt := bkt })

/-- One forward-map entry replayed by `CommitTx`, from the source: a nil
value emits a delete record, a non-nil value emits an insert record. -/
def commitStep (b : Bucket) (p : String × Option Entry) : Bucket :=
  match p.2 with
  | none => b.WriteDeleteEntry p.1
  | some e => b.WriteInsertEntry e

/-- `CommitTx`, from the source: fails on a closed database, fails on a
read-only transaction (both failure paths return before `unlock`); for a
read-write transaction replays the forward map into the durability-log
buffer, flushes, and unlocks. -/
def Tx.CommitTx (t : Tx) : Option String × Tx :=
  if !t.db.dopen then
    (some "error: db is closed", t)
  else if t.mode = RWMode.MODE_READ then
    (some "error: cannot commit read only transaction", t)
  else
    let t2 :=
      if t.mode = RWMode.MODE_READ_WRITE then
        { t with
          bkt := (t.rbctx.forward.foldl commitStep t.bkt).WriteAOFBuf }
      else t
    (none, t2.unlock)

/-- `Get`, from the source: fails if the database or bucket is closed;
looks the key up in the primary index and filters out an entry that is
expired or invalid; performs no mutation. -/
def Tx.Get (t : Tx) (e : Entry) (now : Nat) :
    Except String (Option Entry) × Tx :=
  if !t.db.dopen || !t.bkt.bopen then
    (Except.error "error: cannot get entry; db is in invalid state", t)
  else
    match t.bkt.get e.k with
    | some res =>
        if res.IsExpired now || res.IsInvalid then (Except.ok none, t)
        else (Except.ok (some res), t)
    | none => (Except.ok none, t)

/-- `Set`, from the source: fails if the database or bucket is closed;
inserts into the primary index, unconditionally overwrites
`backward[e.k]` with the previous occupant and `forward[e.k]` with the
new entry, and returns the previous occupant. -/
def Tx.Set (t : Tx) (e : Entry) : Except String (Option Entry) × Tx :=
  if !t.db.dopen || !t.bkt.bopen then
    (Except.error "error: cannot set entry; db is in invalid state", t)
  else
    let r := t.bkt.insert e
    (Except.ok r.1,
      { t with
        bkt := r.2,
        rbctx :=
          { t.rbctx with
            backward := minsert t.rbctx.backward e.k r.1,
            forward := minsert t.rbctx.forward e.k (some e) } })

/-- `Delete`, from the source: fails if the database or bucket is closed;
deletes from the primary index; records `backward[e.k]` and
`forward[e.k]` only when an entry was actually removed. -/
def Tx.Delete (t : Tx) (e : Entry) : Except String (Option Entry) × Tx :=
  if !t.db.dopen || !t.bkt.bopen then
    (Except.error "error: cannot delete entry; db is in invalid state", t)
  else
    let r := t.bkt.delete e.k
    match r.1 with
    | none => (Except.ok none, { t with bkt := r.2 })
    | some d =>
        (Except.ok (some d),
          { t with
            bkt := r.2,
            rbctx :=
              { t.rbctx with
                backward := minsert t.rbctx.backward e.k (some d),
                forward := minsert t.rbctx.forward e.k none } })

/-- `CreateIndex`, from the source: fails if the database or bucket is
closed or the index already exists; otherwise registers a freshly built
index and records `backwardIndex[pattern] = nil`. -/
def Tx.CreateIndex (t : Tx) (pattern : String) : Option String × Tx :=
  if !t.db.dopen || !t.bkt.bopen then
    (some "error: cannot create index; db is in invalid state", t)
  else
    match mlookup t.bkt.indexes pattern with
    | some _ => (some "error: cannot create index; index already exists", t)
    | none =>
        let index := (NewIndex pattern).build t.bkt.data
        (none,
          { t with
            bkt := { t.bkt with indexes := minsert t.bkt.indexes pattern index },
            rbctx :=
              { t.rbctx with
                backwardIndex := minsert t.rbctx.backwardIndex pattern none } })

/-- `DropIndex`, from the source: fails if the database or bucket is
closed or the index does not exist; otherwise records
`backwardIndex[pattern] = <the index>` and removes it from the
registry. -/
def Tx.DropIndex (t : Tx) (pattern : String) : Option String × Tx :=
  if !t.db.dopen || !t.bkt.bopen then
    (some "error: cannot drop index; db is in invalid state", t)
  else
    match mlookup t.bkt.indexes pattern with
    | none => (some "error: cannot drop; index does not exist", t)
    | some index =>
        (none,
          { t with
            bkt := { t.bkt with indexes := merase t.bkt.indexes pattern },
            rbctx :=
              { t.rbctx with
                backwardIndex :=
                  minsert t.rbctx.backwardIndex pattern (some index) } })

/-! ### Concrete fixtures -/

/-- Entry "a" ↦ "1". -/
def e1 : Entry := { k := "a", v := "1", expiresAt := none, valid := true }

/-- Entry "a" ↦ "2". -/
def e2 : Entry := { k := "a", v := "2", expiresAt := none, valid := true }

/-- An open database. -/
def db0 : StitchDB := { dopen := true }

/-- A closed database. -/
def dbClosed : StitchDB := { dopen := false }

/-- An open, empty, unlocked bucket with no indexes. -/
def bkt0 : Bucket :=
  { data := [], indexes := [], bopen := true, aof := [],
    writers := 0, readers := 0 }

/-- An empty secondary index on pattern "val". -/
def idxEmpty : Index := { pattern := "val", t := [] }

/-- An open bucket with one empty secondary index. -/
def bkt1 : Bucket := { bkt0 with indexes := [("val", idxEmpty)] }

/-- A secondary index on pattern "val" containing entry `e1`. -/
def idxA : Index := { pattern := "val", t := [("a", e1)] }

/-- An open bucket whose primary index and secondary index both hold
`e1`. -/
def bkt2 : Bucket :=
  { data := [("a", e1)], indexes := [("val", idxA)], bopen := true,
    aof := [], writers := 0, readers := 0 }

/-! ### C1, C2, C4, C5, C6: divergences of the code from the spec -/

/-- C1: the claim states that Rollback restores, per key, the state from
immediately before the transaction, including when the same key is
written more than once.  The code violates it: on an initially absent key
"a", `Set e1; Set e2; Rollback` leaves "a" bound to the intermediate
entry `e1` instead of absent, because `Set` overwrites `backward["a"]`
with the intermediate value. -/
theorem c1_rollback_leaves_intermediate_value :
    mlookup bkt0.data "a" = none ∧
    mlookup (Tx.RollbackTx
      (Tx.Set (Tx.Set (NewTx db0 bkt0 RWMode.MODE_READ_WRITE) e1).2
        e2).2).2.bkt.data "a" = some e1 := by
  exact ⟨rfl, rfl⟩

/-- C2: the claim states that `backward[key]` is written only by the
first Set/Delete touching the key.  The code violates it: after
`Set e1; Set e2` on an initially absent key "a", `backward["a"]` has been
changed from the nil marker (recorded by the first Set) to the
intermediate entry `e1` (recorded by the second Set). -/
theorem c2_backward_overwritten_on_second_set :
    mlookup (Tx.Set (NewTx db0 bkt0 RWMode.MODE_READ_WRITE)
      e1).2.rbctx.backward "a" = some none ∧
    mlookup (Tx.Set (Tx.Set (NewTx db0 bkt0 RWMode.MODE_READ_WRITE) e1).2
      e2).2.rbctx.backward "a" = some (some e1) := by
  exact ⟨rfl, rfl⟩

/-- C4: the claim states that Rollback undoes index-registry changes
recorded in `backwardIndex`; in particular `CreateIndex "x"; Rollback`
leaves no index "x".  The code violates it: `RollbackTx` never consults
`backwardIndex`, so the index created during the transaction is still
registered after rollback. -/
theorem c4_rollback_keeps_created_index :
    mlookup bkt0.indexes "x" = none ∧
    mlookup (Tx.RollbackTx
      (Tx.CreateIndex (NewTx db0 bkt0 RWMode.MODE_READ_WRITE)
        "x").2).2.bkt.indexes "x" = some ((NewIndex "x").build bkt0.data) := by
  exact ⟨rfl, rfl⟩

/-- C5: the claim states that Set updates every secondary index and
Delete removes the key from every secondary index in the forward path.
The code violates both directions: Set on a bucket with a registered
(empty) index updates the primary index but leaves the index tree empty,
and Delete on a bucket whose index holds the entry removes it from the
primary index but leaves the index tree unchanged. -/
theorem c5_set_delete_skip_secondary_indexes :
    (Tx.Set (NewTx db0 bkt1 RWMode.MODE_READ_WRITE) e1).2.bkt.indexes
      = [("val", idxEmpty)] ∧
    mlookup (Tx.Set (NewTx db0 bkt1 RWMode.MODE_READ_WRITE) e1).2.bkt.data
      "a" = some e1 ∧
    (Tx.Delete (NewTx db0 bkt2 RWMode.MODE_READ_WRITE) e1).2.bkt.indexes
      = [("val", idxA)] ∧
    mlookup (Tx.Delete (NewTx db0 bkt2 RWMode.MODE_READ_WRITE)
      e1).2.bkt.data "a" = none := by
  exact ⟨rfl, rfl, rfl, rfl⟩

/-- C6: the claim states that Commit releases the bucket lock on every
exit path, including the closed-database and read-only failure paths.
The code violates it: on a write-locked transaction against a closed
database, and on a read-locked read-only transaction, `CommitTx` returns
an error while the lock-holder count stays at 1. -/
theorem c6_commit_error_paths_keep_lock :
    (Tx.CommitTx (Tx.lock (NewTx dbClosed bkt0 RWMode.MODE_READ_WRITE))).1
      = some "error: db is closed" ∧
    (Tx.CommitTx
      (Tx.lock (NewTx dbClosed bkt0 RWMode.MODE_READ_WRITE))).2.bkt.writers
      = 1 ∧
    (Tx.CommitTx (Tx.lock (NewTx db0 bkt0 RWMode.MODE_READ))).1
      = some "error: cannot commit read only transaction" ∧
    (Tx.CommitTx (Tx.lock (NewTx db0 bkt0 RWMode.MODE_READ))).2.bkt.readers
      = 1 := by
  exact ⟨rfl, rfl, rfl, rfl⟩

/-- C7 counterexample: the claim states that for every ReadOnly
transaction, Rollback is a pure lock release with no data effect.  The
code permits Set inside a ReadOnly transaction (no mode check), and
Rollback then replays the backward map, so it does change the primary
index: after `Set e1` in a ReadOnly transaction the rollback removes
"a" again. -/
theorem c7_readonly_rollback_has_data_effect :
    (Tx.RollbackTx
      (Tx.Set (Tx.lock (NewTx db0 bkt0 RWMode.MODE_READ)) e1).2).2.bkt.data
      ≠ (Tx.Set (Tx.lock (NewTx db0 bkt0 RWMode.MODE_READ)) e1).2.bkt.data := by
  decide

/-! ### C7, C8, C9, C10: proved properties -/

theorem merase_eq_of_lookup_none {α : Type} (m : List (String × α))
    (k : String) (h : mlookup m k = none) : merase m k = m := by
  induction m with
  | nil => rfl
  | cons p m ih =>
    obtain ⟨k', v⟩ := p
    by_cases hk : k' = k
    · subst hk; simp [mlookup] at h
    · simp [mlookup, hk] at h
      simp [merase, hk, ih h]

/-- C7 (amended): on a ReadOnly transaction with the database open,
Commit fails with the illegal-operation error and performs no effect at
all; and Rollback on a ReadOnly transaction whose backward map is empty
(as when no successful Set/Delete occurred) is a pure lock release:
primary index, index registry and log buffer are unchanged and the
reader count drops by one. -/
theorem c7_readonly_commit_fails_rollback_pure (t : Tx)
    (hdb : t.db.dopen = true) (hm : t.mode = RWMode.MODE_READ) :
    Tx.CommitTx t = (some "error: cannot commit read only transaction", t) ∧
    (t.rbctx.backward = [] →
      (Tx.RollbackTx t).1 = none ∧
      (Tx.RollbackTx t).2.bkt.data = t.bkt.data ∧
      (Tx.RollbackTx t).2.bkt.indexes = t.bkt.indexes ∧
      (Tx.RollbackTx t).2.bkt.aof = t.bkt.aof ∧
      (Tx.RollbackTx t).2.bkt.readers = t.bkt.readers - 1 ∧
      (Tx.RollbackTx t).2.bkt.writers = t.bkt.writers) := by
  constructor
  · simp [Tx.CommitTx, hdb, hm]
  · intro hemp
    simp [Tx.RollbackTx, hemp, Tx.unlock, hm]

/-- Witness for C7: a freshly begun, read-locked ReadOnly transaction on
an open database. -/
theorem c7_witness :
    (Tx.lock (NewTx db0 bkt0 RWMode.MODE_READ)).db.dopen = true ∧
    (Tx.lock (NewTx db0 bkt0 RWMode.MODE_READ)).mode = RWMode.MODE_READ ∧
    (Tx.lock (NewTx db0 bkt0 RWMode.MODE_READ)).rbctx.backward = [] ∧
    Tx.CommitTx (Tx.lock (NewTx db0 bkt0 RWMode.MODE_READ))
      = (some "error: cannot commit read only transaction",
         Tx.lock (NewTx db0 bkt0 RWMode.MODE_READ)) ∧
    (Tx.RollbackTx (Tx.lock (NewTx db0 bkt0 RWMode.MODE_READ))).2.bkt.data
      = (Tx.lock (NewTx db0 bkt0 RWMode.MODE_READ)).bkt.data ∧
    (Tx.RollbackTx (Tx.lock (NewTx db0 bkt0 RWMode.MODE_READ))).2.bkt.readers
      = (Tx.lock (NewTx db0 bkt0 RWMode.MODE_READ)).bkt.readers - 1 :=
  ⟨rfl, rfl, rfl,
    (c7_readonly_commit_fails_rollback_pure _ rfl rfl).1,
    ((c7_readonly_commit_fails_rollback_pure _ rfl rfl).2 rfl).2.1,
    ((c7_readonly_commit_fails_rollback_pure _ rfl rfl).2 rfl).2.2.2.2.1⟩

/-- C8: Get on a key whose entry is expired or invalid returns "not
found" (ok none) rather than the stale entry, while the entry stays
physically present in the primary index, which Get leaves unchanged. -/
theorem c8_get_filters_stale_entries (t : Tx) (e res : Entry) (now : Nat)
    (hdb : t.db.dopen = true) (hb : t.bkt.bopen = true)
    (hres : mlookup t.bkt.data e.k = some res)
    (hstale : (res.IsExpired now || res.IsInvalid) = true) :
    Tx.Get t e now = (Except.ok none, t) ∧
    mlookup (Tx.Get t e now).2.bkt.data e.k = some res := by
  have hget : Tx.Get t e now = (Except.ok none, t) := by
    simp [Tx.Get, hdb, hb, Bucket.get, hres, hstale]
  exact ⟨hget, by rw [hget]; exact hres⟩

/-- An entry that expired at time 5. -/
def eExp : Entry := { k := "x", v := "v", expiresAt := some 5, valid := true }

/-- An open bucket holding the expired entry. -/
def bktExp : Bucket :=
  { data := [("x", eExp)], indexes := [], bopen := true, aof := [],
    writers := 0, readers := 0 }

/-- Witness for C8: reading the expired entry at time 10. -/
theorem c8_witness :
    (NewTx db0 bktExp RWMode.MODE_READ).db.dopen = true ∧
    (NewTx db0 bktExp RWMode.MODE_READ).bkt.bopen = true ∧
    mlookup (NewTx db0 bktExp RWMode.MODE_READ).bkt.data eExp.k = some eExp ∧
    (eExp.IsExpired 10 || eExp.IsInvalid) = true ∧
    Tx.Get (NewTx db0 bktExp RWMode.MODE_READ) eExp 10
      = (Except.ok none, NewTx db0 bktExp RWMode.MODE_READ) :=
  ⟨rfl, rfl, rfl, by decide,
    (c8_get_filters_stale_entries (NewTx db0 bktExp RWMode.MODE_READ)
      eExp eExp 10 rfl rfl rfl (by decide)).1⟩

theorem delete_absent_eq (t : Tx) (e : Entry)
    (hdb : t.db.dopen = true) (hb : t.bkt.bopen = true)
    (habs : mlookup t.bkt.data e.k = none) :
    Tx.Delete t e = (Except.ok none, t) := by
  have hcond : (!t.db.dopen || !t.bkt.bopen) = false := by simp [hdb, hb]
  simp [Tx.Delete, hcond, Bucket.delete, habs,
    merase_eq_of_lookup_none _ _ habs]

/-- C9: Delete on a key absent from the primary index returns ok none
and leaves the whole transaction — in particular the backward and
forward maps — unchanged. -/
theorem c9_delete_absent_is_noop (t : Tx) (e : Entry)
    (hdb : t.db.dopen = true) (hb : t.bkt.bopen = true)
    (habs : mlookup t.bkt.data e.k = none) :
    Tx.Delete t e = (Except.ok none, t) :=
  delete_absent_eq t e hdb hb habs

/-- Witness for C9: deleting the absent key "a" from an empty bucket. -/
theorem c9_witness :
    (NewTx db0 bkt0 RWMode.MODE_READ_WRITE).db.dopen = true ∧
    (NewTx db0 bkt0 RWMode.MODE_READ_WRITE).bkt.bopen = true ∧
    mlookup (NewTx db0 bkt0 RWMode.MODE_READ_WRITE).bkt.data e1.k = none ∧
    Tx.Delete (NewTx db0 bkt0 RWMode.MODE_READ_WRITE) e1
      = (Except.ok none, NewTx db0 bkt0 RWMode.MODE_READ_WRITE) :=
  ⟨rfl, rfl, rfl, c9_delete_absent_is_noop _ e1 rfl rfl rfl⟩

/-- C10: Set, Delete, CreateIndex and DropIndex perform no
transaction-mode check: on an open database and bucket they behave in
MODE_READ exactly as in MODE_READ_WRITE — identical results, identical
bucket and rollback-context updates — and Set/Delete succeed, a
CreateIndex of a fresh name succeeds and registers the index, and a
DropIndex of an existing name succeeds and unregisters it. -/
theorem c10_write_ops_ignore_mode (db : StitchDB) (b : Bucket) (rb : RbCtx)
    (e : Entry) (p q : String)
    (hdb : db.dopen = true) (hb : b.bopen = true) :
    (Tx.Set ⟨db, b, RWMode.MODE_READ, rb⟩ e).1
      = Except.ok (mlookup b.data e.k) ∧
    (Tx.Set ⟨db, b, RWMode.MODE_READ, rb⟩ e).2.bkt
      = (Tx.Set ⟨db, b, RWMode.MODE_READ_WRITE, rb⟩ e).2.bkt ∧
    (Tx.Set ⟨db, b, RWMode.MODE_READ, rb⟩ e).2.rbctx
      = (Tx.Set ⟨db, b, RWMode.MODE_READ_WRITE, rb⟩ e).2.rbctx ∧
    (Tx.Delete ⟨db, b, RWMode.MODE_READ, rb⟩ e).1
      = Except.ok (mlookup b.data e.k) ∧
    (Tx.Delete ⟨db, b, RWMode.MODE_READ, rb⟩ e).2.bkt
      = (Tx.Delete ⟨db, b, RWMode.MODE_READ_WRITE, rb⟩ e).2.bkt ∧
    (Tx.Delete ⟨db, b, RWMode.MODE_READ, rb⟩ e).2.rbctx
      = (Tx.Delete ⟨db, b, RWMode.MODE_READ_WRITE, rb⟩ e).2.rbctx ∧
    (Tx.CreateIndex ⟨db, b, RWMode.MODE_READ, rb⟩ p).1
      = (Tx.CreateIndex ⟨db, b, RWMode.MODE_READ_WRITE, rb⟩ p).1 ∧
    (Tx.CreateIndex ⟨db, b, RWMode.MODE_READ, rb⟩ p).2.bkt
      = (Tx.CreateIndex ⟨db, b, RWMode.MODE_READ_WRITE, rb⟩ p).2.bkt ∧
    (mlookup b.indexes p = none →
      (Tx.CreateIndex ⟨db, b, RWMode.MODE_READ, rb⟩ p).1 = none ∧
      mlookup (Tx.CreateIndex ⟨db, b, RWMode.MODE_READ, rb⟩ p).2.bkt.indexes p
        = some ((NewIndex p).build b.data)) ∧
    (Tx.DropIndex ⟨db, b, RWMode.MODE_READ, rb⟩ q).1
      = (Tx.DropIndex ⟨db, b, RWMode.MODE_READ_WRITE, rb⟩ q).1 ∧
    (Tx.DropIndex ⟨db, b, RWMode.MODE_READ, rb⟩ q).2.bkt
      = (Tx.DropIndex ⟨db, b, RWMode.MODE_READ_WRITE, rb⟩ q).2.bkt ∧
    (∀ i, mlookup b.indexes q = some i →
      (Tx.DropIndex ⟨db, b, RWMode.MODE_READ, rb⟩ q).1 = none ∧
      mlookup (Tx.DropIndex ⟨db, b, RWMode.MODE_READ, rb⟩ q).2.bkt.indexes q
        = none) := by
  refine ⟨?_, ?_, ?_, ?_, ?_, ?_, ?_, ?_, ?_, ?_, ?_, ?_⟩
  · simp [Tx.Set, hdb, hb, Bucket.insert]
  · simp [Tx.Set, hdb, hb, Bucket.insert]
  · simp [Tx.Set, hdb, hb, Bucket.insert]
  · cases h : mlookup b.data e.k <;>
      simp [Tx.Delete, hdb, hb, Bucket.delete, h]
  · cases h : mlookup b.data e.k <;>
      simp [Tx.Delete, hdb, hb, Bucket.delete, h]
  · cases h : mlookup b.data e.k <;>
      simp [Tx.Delete, hdb, hb, Bucket.delete, h]
  · cases h : mlookup b.indexes p <;>
      simp [Tx.CreateIndex, hdb, hb, h]
  · cases h : mlookup b.indexes p <;>
      simp [Tx.CreateIndex, hdb, hb, h]
  · intro h
    simp [Tx.CreateIndex, hdb, hb, h, mlookup_minsert]
  · cases h : mlookup b.indexes q <;>
      simp [Tx.DropIndex, hdb, hb, h]
  · cases h : mlookup b.indexes q <;>
      simp [Tx.DropIndex, hdb, hb, h]
  · intro i h
    simp [Tx.DropIndex, hdb, hb, h, mlookup_merase]

/-- Witness for C10: the four operations applied in a ReadOnly
transaction on an open bucket with one registered index. -/
theorem c10_witness :
    db0.dopen = true ∧ bkt2.bopen = true ∧
    (Tx.Set ⟨db0, bkt2, RWMode.MODE_READ,
       (NewTx db0 bkt2 RWMode.MODE_READ).rbctx⟩ e2).1
      = Except.ok (mlookup bkt2.data e2.k) ∧
    mlookup bkt2.indexes "fresh" = none ∧
    (Tx.CreateIndex ⟨db0, bkt2, RWMode.MODE_READ,
       (NewTx db0 bkt2 RWMode.MODE_READ).rbctx⟩ "fresh").1 = none ∧
    mlookup bkt2.indexes "val" = some idxA ∧
    (Tx.DropIndex ⟨db0, bkt2, RWMode.MODE_READ,
       (NewTx db0 bkt2 RWMode.MODE_READ).rbctx⟩ "val").1 = none ∧
    mlookup (Tx.DropIndex ⟨db0, bkt2, RWMode.MODE_READ,
       (NewTx db0 bkt2 RWMode.MODE_READ).rbctx⟩ "val").2.bkt.indexes "val"
      = none :=
  ⟨rfl, rfl,
    (c10_write_ops_ignore_mode db0 bkt2
      (NewTx db0 bkt2 RWMode.MODE_READ).rbctx e2 "fresh" "val" rfl rfl).1,
    rfl,
    ((c10_write_ops_ignore_mode db0 bkt2
      (NewTx db0 bkt2 RWMode.MODE_READ).rbctx e2 "fresh" "val" rfl
        rfl).2.2.2.2.2.2.2.2.1 rfl).1,
    rfl,
    ((c10_write_ops_ignore_mode db0 bkt2
      (NewTx db0 bkt2 RWMode.MODE_READ).rbctx e2 "fresh" "val" rfl
        rfl).2.2.2.2.2.2.2.2.2.2.2 idxA rfl).1,
    ((c10_write_ops_ignore_mode db0 bkt2
      (NewTx db0 bkt2 RWMode.MODE_READ).rbctx e2 "fresh" "val" rfl
        rfl).2.2.2.2.2.2.2.2.2.2.2 idxA rfl).2⟩

/-! ### C3: commit applies exactly the net effect of a single-key
sequence -/

/-- A Set or Delete issued against the single key under consideration. -/
inductive KOp where
  | kset (e : Entry)
  | kdel
deriving DecidableEq

/-- The key an op addresses; a delete addresses `k` itself. -/
def KOp.key (k : String) : KOp → String
  | KOp.kset e => e.k
  | KOp.kdel => k

/-- The dummy entry through which a delete of key `k` is issued. -/
def delArg (k : String) : Entry :=
  { k := k, v := "", expiresAt := none, valid := true }

/-- Apply one op through the transaction interface, discarding the
returned previous entry as the caller in the scenario does. -/
def applyKOp (k : String) (t : Tx) (op : KOp) : Tx :=
  match op with
  | KOp.kset e => (Tx.Set t e).2
  | KOp.kdel => (Tx.Delete t (delArg k)).2

/-- Apply a sequence of ops in order. -/
def applyKOps (k : String) (t : Tx) (ops : List KOp) : Tx :=
  ops.foldl (applyKOp k) t

/-- Replay a sequence of ops over the key's initial content: the first
component is the net content (the effect of the last op, with Set
winning over its argument and Delete yielding absence), the second
records whether any op actually applied (a Set always applies, a Delete
only when the key was present at that moment). -/
def runNet : Option Entry → List KOp → Option Entry × Bool
  | c, [] => (c, false)
  | _, KOp.kset e :: ops => ((runNet (some e) ops).1, true)
  | c, KOp.kdel :: ops =>
      ((runNet none ops).1, c.isSome || (runNet none ops).2)

/-- The durability-log record the net content calls for: an insert
record for a net-present key, a delete record for a net-absent key. -/
def mkRecord (k : String) : Option Entry → LogRecord
  | none => LogRecord.deleteRec k
  | some e => LogRecord.insertRec e

theorem runNet_fst_of_not_touched (c : Option Entry) (ops : List KOp)
    (h : (runNet c ops).2 = false) : (runNet c ops).1 = c := by
  induction ops generalizing c with
  | nil => rfl
  | cons op ops ih =>
    cases op with
    | kset e => simp [runNet] at h
    | kdel =>
      simp [runNet] at h
      cases c with
      | none => simpa [runNet, h.2] using ih none h.2
      | some d => simp at h

theorem runNet_fst_append_set (c : Option Entry) (ops : List KOp)
    (e : Entry) : (runNet c (ops ++ [KOp.kset e])).1 = some e := by
  induction ops generalizing c with
  | nil => simp [runNet]
  | cons o ops ih => cases o <;> simp [runNet, ih]

theorem runNet_fst_append_del (c : Option Entry) (ops : List KOp) :
    (runNet c (ops ++ [KOp.kdel])).1 = none := by
  induction ops generalizing c with
  | nil => simp [runNet]
  | cons o ops ih => cases o <;> simp [runNet, ih]

/-- Invariant of the single-key write loop: the database, mode, open
flag and log buffer are untouched; the primary-index content at the key
replays the ops; the forward map is either untouched (when no op
applied) or the singleton binding the key to the current content. -/
theorem applyKOps_spec (k : String) (ops : List KOp) (t : Tx)
    (hdb : t.db.dopen = true) (hb : t.bkt.bopen = true)
    (hwf : ∀ op ∈ ops, KOp.key k op = k)
    (hfwd : t.rbctx.forward = [] ∨
      t.rbctx.forward = [(k, mlookup t.bkt.data k)]) :
    (applyKOps k t ops).db = t.db ∧
    (applyKOps k t ops).mode = t.mode ∧
    (applyKOps k t ops).bkt.bopen = t.bkt.bopen ∧
    (applyKOps k t ops).bkt.aof = t.bkt.aof ∧
    mlookup (applyKOps k t ops).bkt.data k
      = (runNet (mlookup t.bkt.data k) ops).1 ∧
    (applyKOps k t ops).rbctx.forward
      = (if (runNet (mlookup t.bkt.data k) ops).2 then
          [(k, (runNet (mlookup t.bkt.data k) ops).1)]
         else t.rbctx.forward) := by
  induction ops generalizing t with
  | nil => simp [applyKOps, runNet]
  | cons op ops ih =>
    have hcond : (!t.db.dopen || !t.bkt.bopen) = false := by simp [hdb, hb]
    have hwftail : ∀ o ∈ ops, KOp.key k o = k := by
      intro o ho; exact hwf o (List.mem_cons_of_mem _ ho)
    cases op with
    | kset e =>
      have he : e.k = k := hwf (KOp.kset e) (List.mem_cons_self _ _)
      have hstep : applyKOps k t (KOp.kset e :: ops)
          = applyKOps k (Tx.Set t e).2 ops := rfl
      have hset : (Tx.Set t e).2
          = { t with
              bkt := { t.bkt with data := minsert t.bkt.data e.k e },
              rbctx :=
                { t.rbctx with
                  backward := minsert t.rbctx.backward e.k
                    (mlookup t.bkt.data e.k),
                  forward := minsert t.rbctx.forward e.k (some e) } } := by
        simp [Tx.Set, hcond, Bucket.insert]
      set t1 := (Tx.Set t e).2 with ht1
      have hdb1 : t1.db.dopen = true := by rw [hset]; exact hdb
      have hb1 : t1.bkt.bopen = true := by rw [hset]; exact hb
      have hlook1 : mlookup t1.bkt.data k = some e := by
        rw [hset]; simp [he, mlookup_minsert]
      have hfwd1 : t1.rbctx.forward = [] ∨
          t1.rbctx.forward = [(k, mlookup t1.bkt.data k)] := by
        refine Or.inr ?_
        rw [hlook1, hset]
        rcases hfwd with h | h <;>
          simp [he, h, minsert, merase]
      obtain ⟨i1, i2, i3, i4, i5, i6⟩ := ih t1 hdb1 hb1 hwftail hfwd1
      rw [hstep]
      refine ⟨?_, ?_, ?_, ?_, ?_, ?_⟩
      · rw [i1, hset]
      · rw [i2, hset]
      · rw [i3, hset]
      · rw [i4, hset]
      · rw [i5, hlook1]; simp [runNet]
      · rw [i6, hlook1]
        simp only [runNet]
        by_cases htch : (runNet (some e) ops).2 = true
        · simp [htch]
        · have hnt := runNet_fst_of_not_touched (some e) ops
            (Bool.eq_false_iff.mpr htch)
          simp only [Bool.not_eq_true] at htch
          rw [htch, hnt]
          simp [hset, he]
          rcases hfwd with h | h <;> simp [h, minsert, merase]
    | kdel =>
      have hstep : applyKOps k t (KOp.kdel :: ops)
          = applyKOps k (Tx.Delete t (delArg k)).2 ops := rfl
      cases hc : mlookup t.bkt.data k with
      | none =>
        have hdel : (Tx.Delete t (delArg k)).2 = t := by
          have := delete_absent_eq t (delArg k) hdb hb hc
          rw [this]
        obtain ⟨i1, i2, i3, i4, i5, i6⟩ := ih t hdb hb hwftail hfwd
        rw [hstep, hdel]
        refine ⟨i1, i2, i3, i4, ?_, ?_⟩
        · rw [i5, hc]; simp [runNet]
        · rw [i6, hc]; simp [runNet]
      | some d =>
        have hdel : (Tx.Delete t (delArg k)).2
            = { t with
                bkt := { t.bkt with data := merase t.bkt.data k },
                rbctx :=
                  { t.rbctx with
                    backward := minsert t.rbctx.backward k (some d),
                    forward := minsert t.rbctx.forward k none } } := by
          simp [Tx.Delete, hcond, Bucket.delete, delArg, hc]
        set t1 := (Tx.Delete t (delArg k)).2 with ht1
        have hdb1 : t1.db.dopen = true := by rw [hdel]; exact hdb
        have hb1 : t1.bkt.bopen = true := by rw [hdel]; exact hb
        have hlook1 : mlookup t1.bkt.data k = none := by
          rw [hdel]; simp [mlookup_merase]
        have hfwd1 : t1.rbctx.forward = [] ∨
            t1.rbctx.forward = [(k, mlookup t1.bkt.data k)] := by
          refine Or.inr ?_
          rw [hlook1, hdel]
          rcases hfwd with h | h <;>
            simp [h, minsert, merase]
        obtain ⟨i1, i2, i3, i4, i5, i6⟩ := ih t1 hdb1 hb1 hwftail hfwd1
        rw [hstep]
        refine ⟨?_, ?_, ?_, ?_, ?_, ?_⟩
        · rw [i1, hdel]
        · rw [i2, hdel]
        · rw [i3, hdel]
        · rw [i4, hdel]
        · rw [i5, hlook1]; simp [runNet]
        · rw [i6, hlook1]
          simp only [runNet, Option.isSome_some, Bool.true_or, if_true]
          by_cases htch : (runNet none ops).2 = true
          · simp [htch]
          · have hnt := runNet_fst_of_not_touched none ops
              (Bool.eq_false_iff.mpr htch)
            simp only [Bool.not_eq_true] at htch
            rw [htch, hnt]
            simp [hdel]
            rcases hfwd with h | h <;> simp [h, minsert, merase]

theorem unlock_bkt_data (t : Tx) : (Tx.unlock t).bkt.data = t.bkt.data := by
  cases ht : t.mode <;> simp [Tx.unlock, ht]

theorem unlock_bkt_aof (t : Tx) : (Tx.unlock t).bkt.aof = t.bkt.aof := by
  cases ht : t.mode <;> simp [Tx.unlock, ht]

theorem foldl_commitStep_data (fwd : List (String × Option Entry))
    (b : Bucket) : (fwd.foldl commitStep b).data = b.data := by
  induction fwd generalizing b with
  | nil => rfl
  | cons p fwd ih =>
    obtain ⟨a, v⟩ := p
    cases v <;>
      simp [commitStep, Bucket.WriteDeleteEntry, Bucket.WriteInsertEntry,
        ih]

/-- C3: for every sequence of Set/Delete on a single key within one
freshly begun ReadWrite transaction followed by Commit, the commit
succeeds, the final primary-index content at the key is the net effect
of the sequence (the effect of its last applied op — `runNet` replays
the sequence, and an op sequence ending in a Set or Delete nets to that
final op's effect, never an intermediate value), and the records emitted
to the durability log are exactly one insert record if the key is
net-present, one delete record if it is net-absent, and none if no op
applied. -/
theorem c3_commit_applies_net_effect (k : String) (ops : List KOp)
    (db : StitchDB) (b : Bucket)
    (hdb : db.dopen = true) (hb : b.bopen = true)
    (hwf : ∀ op ∈ ops, KOp.key k op = k) :
    (Tx.CommitTx (applyKOps k (NewTx db b RWMode.MODE_READ_WRITE) ops)).1
      = none ∧
    mlookup (Tx.CommitTx (applyKOps k (NewTx db b RWMode.MODE_READ_WRITE)
          ops)).2.bkt.data k
      = (runNet (mlookup b.data k) ops).1 ∧
    (Tx.CommitTx (applyKOps k (NewTx db b RWMode.MODE_READ_WRITE)
          ops)).2.bkt.aof
      = b.aof ++ (if (runNet (mlookup b.data k) ops).2 then
          [mkRecord k (runNet (mlookup b.data k) ops).1] else []) ∧
    (∀ ops0 e, ops = ops0 ++ [KOp.kset e] →
      (runNet (mlookup b.data k) ops).1 = some e) ∧
    (∀ ops0, ops = ops0 ++ [KOp.kdel] →
      (runNet (mlookup b.data k) ops).1 = none) := by
  obtain ⟨i1, i2, i3, i4, i5, i6⟩ :=
    applyKOps_spec k ops (NewTx db b RWMode.MODE_READ_WRITE) hdb hb hwf
      (Or.inl rfl)
  set t1 := applyKOps k (NewTx db b RWMode.MODE_READ_WRITE) ops with ht1
  simp only [NewTx] at i1 i2 i3 i4 i5 i6
  have hdb1 : t1.db.dopen = true := by rw [i1]; exact hdb
  have hcommit : Tx.CommitTx t1
      = (none, Tx.unlock
          { t1 with
            bkt := (t1.rbctx.forward.foldl commitStep t1.bkt).WriteAOFBuf }) := by
    simp [Tx.CommitTx, hdb1, i2, Bucket.WriteAOFBuf]
  refine ⟨?_, ?_, ?_, ?_, ?_⟩
  · rw [hcommit]
  · rw [hcommit]
    simp only [Bucket.WriteAOFBuf, unlock_bkt_data]
    simp only [foldl_commitStep_data]
    exact i5
  · rw [hcommit]
    simp only [Bucket.WriteAOFBuf, unlock_bkt_aof]
    rw [i6]
    by_cases htch : (runNet (mlookup b.data k) ops).2 = true
    · rw [if_pos htch, if_pos htch]
      cases hnet : (runNet (mlookup b.data k) ops).1 <;>
        simp [commitStep, Bucket.WriteDeleteEntry, Bucket.WriteInsertEntry,
          mkRecord, i4]
    · rw [if_neg htch, if_neg htch]
      have : t1.rbctx.forward = [] := by
        rw [i6, if_neg htch]
      simp [i4]
  · intro ops0 e h
    rw [h]
    exact runNet_fst_append_set _ _ _
  · intro ops0 h
    rw [h]
    exact runNet_fst_append_del _ _

/-- Witness for C3: `Set e1; Delete; Set e2` on key "a" in a fresh
ReadWrite transaction over an empty open bucket, then Commit: the
primary index nets to `e2` and exactly one insert record is emitted. -/
theorem c3_witness :
    db0.dopen = true ∧ bkt0.bopen = true ∧
    KOp.key "a" (KOp.kset e1) = "a" ∧ KOp.key "a" KOp.kdel = "a" ∧
    KOp.key "a" (KOp.kset e2) = "a" ∧
    (Tx.CommitTx (applyKOps "a" (NewTx db0 bkt0 RWMode.MODE_READ_WRITE)
      [KOp.kset e1, KOp.kdel, KOp.kset e2])).1 = none ∧
    mlookup (Tx.CommitTx (applyKOps "a"
      (NewTx db0 bkt0 RWMode.MODE_READ_WRITE)
      [KOp.kset e1, KOp.kdel, KOp.kset e2])).2.bkt.data "a" = some e2 ∧
    (Tx.CommitTx (applyKOps "a" (NewTx db0 bkt0 RWMode.MODE_READ_WRITE)
      [KOp.kset e1, KOp.kdel, KOp.kset e2])).2.bkt.aof
      = [LogRecord.insertRec e2] :=
  ⟨rfl, rfl, rfl, rfl, rfl,
    (c3_commit_applies_net_effect "a" [KOp.kset e1, KOp.kdel, KOp.kset e2]
      db0 bkt0 rfl rfl (by decide)).1,
    by
      have h := (c3_commit_applies_net_effect "a"
        [KOp.kset e1, KOp.kdel, KOp.kset e2] db0 bkt0 rfl rfl
        (by decide)).2.1
      rw [h]; rfl,
    by
      have h := (c3_commit_applies_net_effect "a"
        [KOp.kset e1, KOp.kdel, KOp.kset e2] db0 bkt0 rfl rfl
        (by decide)).2.2.1
      rw [h]; rfl⟩

end StitchSpec
